import Mathlib

/-!
Verification of the Emergency-Responsive-System core: the dispatch
environment (`env.py`), the zone distance helper (`data_generator.py`)
and the tabular Q-learning agent (`rl_agent.py`), shallowly embedded in
Lean 4.  Python dictionaries become structures, `random` outputs become
explicit oracle arguments, machine reals become `ℚ`, and the in-place
mutation of hospital records becomes an explicit `List.set`.
-/

namespace ERS

/-- The five specialty keys that `generate_hospitals` always populates. -/
inductive Specialty
  | trauma
  | cardiac
  | maternity
  | pediatrics
  | general
deriving DecidableEq, Repr

/-- Ambulance status: `"idle"` or `"busy"` in the Python dicts. -/
inductive AmbStatus
  | idle
  | busy
deriving DecidableEq, Repr

/-- A hospital record as produced by `generate_hospitals` (data_generator.py).
Bed counts are Python ints, embedded as `ℤ`. -/
structure Hospital where
  id : Nat
  zone : Nat
  total_beds : ℤ
  available_beds : ℤ
  icu_total : ℤ
  icu_available : ℤ
  specialties : Specialty → Bool

instance : Inhabited Hospital :=
  ⟨{ id := 0, zone := 0, total_beds := 0, available_beds := 0,
     icu_total := 0, icu_available := 0, specialties := fun _ => false }⟩

/-- An ambulance record as produced by `generate_ambulances`. -/
structure Ambulance where
  id : Nat
  zone : Nat
  status : AmbStatus

instance : Inhabited Ambulance := ⟨{ id := 0, zone := 0, status := .idle }⟩

/-- A patient record as produced by `generate_patient`:
severity 0 = moderate, 1 = severe, 2 = critical. -/
structure Patient where
  zone : Nat
  severity : Nat
  required_specialty : Option Specialty

/-- Embedding of `manhattan_zone_distance(z1, z2, cols)` from data_generator.py:
`abs(r1-r2) + abs(c1-c2)` with `r = z // cols`, `c = z % cols`. -/
def manhattan_zone_distance (z1 z2 : Nat) (cols : Nat) : Nat :=
  ((z1 / cols : ℤ) - (z2 / cols : ℤ)).natAbs + ((z1 % cols : ℤ) - (z2 % cols : ℤ)).natAbs

/-- Minimum of a nonempty list (`[]` defaults to 0); mirrors the value
`np.argmin` scans for. -/
def listMin : List Nat → Nat
  | [] => 0
  | x :: xs => xs.foldl min x

/-- Index of the first minimum of the list, the semantics of `np.argmin`
on line 51 of env.py.  Empty list defaults to 0 (`np.argmin` would raise). -/
def argminIdx : List Nat → Nat
  | [] => 0
  | [_] => 0
  | x :: y :: ys => if x ≤ listMin (y :: ys) then 0 else argminIdx (y :: ys) + 1

/-- The mutable part of a `RuralEnv` instance together with its
configuration: `self.cols`, `self.n_hospitals`, `self.n_ambulances`,
`self.hospitals`, `self.ambulances`, `self.patient`. -/
structure Env where
  cols : Nat
  n_hospitals : Nat
  n_ambulances : Nat
  hospitals : List Hospital
  ambulances : List Ambulance
  patient : Patient

/-- The hospital-match flag of `_encode_state`: 1 if the patient needs no
specialty, else 1 iff some hospital offers it and has a free bed. -/
def hospHasFlag (patient : Patient) (hospitals : List Hospital) : Nat :=
  match patient.required_specialty with
  | none => 1
  | some spec =>
      if hospitals.any (fun h => h.specialties spec && decide (0 < h.available_beds))
      then 1 else 0

/-- Index chosen by `np.argmin` over the ambulance distance list, line 50-51 of env.py. -/
def nearestAmbIdx (cols : Nat) (patient : Patient) (ambulances : List Ambulance) : Nat :=
  argminIdx (ambulances.map (fun a => manhattan_zone_distance patient.zone a.zone cols))

/-- Embedding of `RuralEnv._encode_state`: `sev * (n_ambulances*2) + nearest_amb*2 + hosp_has`. -/
def encode_state (cols n_ambulances : Nat) (patient : Patient)
    (ambulances : List Ambulance) (hospitals : List Hospital) : Nat :=
  patient.severity * (n_ambulances * 2)
    + nearestAmbIdx cols patient ambulances * 2
    + hospHasFlag patient hospitals

/-- Embedding of `RuralEnv.reset`: installs freshly generated hospitals, ambulances and
patient (the generator's random draws are passed in as oracle arguments)
and returns the encoded state index together with the new environment. -/
def reset (env : Env) (hospitals : List Hospital) (ambulances : List Ambulance)
    (patient : Patient) : Nat × Env :=
  let env' := { env with hospitals := hospitals, ambulances := ambulances, patient := patient }
  (encode_state env'.cols env'.n_ambulances patient ambulances hospitals, env')

/-- The info dict returned by `step`; the error branches populate only
`reason`, the normal branch populates every field. -/
structure StepInfo where
  reason : String
  ambulance : Option Nat := none
  hospital : Option Nat := none
  dist_hops : Option Nat := none
  travel_time_min : Option ℚ := none
  success : Option Bool := none

/-- The 4-tuple `(next_state, reward, done, info)` returned by `step`. -/
structure StepResult where
  next_state : Option Nat
  reward : ℚ
  done : Bool
  info : StepInfo

/-- Line 104-105 of env.py: `spec_ok` is false iff the patient requires a
specialty the hospital's dict does not flag true. -/
def specOkB (patient : Patient) (hosp : Hospital) : Bool :=
  match patient.required_specialty with
  | none => true
  | some spec => hosp.specialties spec

/-- Line 107-108: the critical-patient ICU check fails. -/
def icuFailB (patient : Patient) (hosp : Hospital) : Bool :=
  decide (patient.severity = 2) && decide (hosp.icu_available ≤ 0)

/-- Line 114: the bed check fails. -/
def bedFailB (hosp : Hospital) : Bool :=
  decide (hosp.available_beds ≤ 0)

/-- Lines 133-136 of env.py: occupy a bed (and an ICU slot for a critical
patient) in the selected hospital, guarding against going below zero. -/
def occupy (patient : Patient) (hosp : Hospital) : Hospital :=
  { hosp with
    available_beds :=
      if 0 < hosp.available_beds then hosp.available_beds - 1 else hosp.available_beds
    icu_available :=
      if patient.severity = 2 ∧ 0 < hosp.icu_available
      then hosp.icu_available - 1 else hosp.icu_available }

/-- Line 97/111/116 of env.py: `success` starts true and is cleared by the
ICU and bed failures only. -/
def stepSuccess (patient : Patient) (hosp : Hospital) : Bool :=
  !(icuFailB patient hosp || bedFailB hosp)

/-- Lines 99-139 of env.py: the sequential `reward -= …` / `reward += …`
mutations, as chained bindings from the computed `travel_time`. -/
def stepReward (patient : Patient) (hosp : Hospital) (travel_time : ℚ) : ℚ :=
  let reward1 : ℚ := if icuFailB patient hosp then 0 - 40 else 0
  let reward2 : ℚ := if bedFailB hosp then reward1 - 20 else reward1
  let reward3 : ℚ := if specOkB patient hosp then reward2 else reward2 - 10
  let time_penalty : ℚ := if patient.severity = 2 then travel_time * (3/2) else travel_time
  let reward4 : ℚ := reward3 - time_penalty / 2
  if stepSuccess patient hosp then reward4 + 50 else reward4 - 5

/-- Lines 112/117/121 of env.py: the accumulated reason string. -/
def stepReason (patient : Patient) (hosp : Hospital) : String :=
  (if icuFailB patient hosp then "no_icu;" else "")
    ++ (if bedFailB hosp then "no_beds;" else "")
    ++ (if specOkB patient hosp then "" else "no_specialty;")

/-- Embedding of `RuralEnv.step` (env.py lines 65-152).  The in-place mutation of the
selected hospital dict becomes `List.set`.  Returns the 4-tuple
`(next_state, reward, done, info)` and the post-step environment. -/
def step (env : Env) (action : Nat) : StepResult × Env :=
  let amb_idx := action / env.n_hospitals
  let hosp_idx := action % env.n_hospitals
  if env.n_ambulances ≤ amb_idx ∨ env.n_hospitals ≤ hosp_idx then
    ({ next_state := none, reward := -50, done := true,
       info := { reason := "invalid_action" } }, env)
  else
    let amb := env.ambulances.getD amb_idx default
    let hosp := env.hospitals.getD hosp_idx default
    if amb.status ≠ AmbStatus.idle then
      ({ next_state := none, reward := -40, done := true,
         info := { reason := "ambulance_not_idle" } }, env)
    else
      let dist := manhattan_zone_distance env.patient.zone amb.zone env.cols
                + manhattan_zone_distance amb.zone hosp.zone env.cols
      let travel_time : ℚ := (dist : ℚ) * 6
      let success := stepSuccess env.patient hosp
      let hospitals' := if success then env.hospitals.set hosp_idx (occupy env.patient hosp)
                        else env.hospitals
      let env' := { env with hospitals := hospitals' }
      ({ next_state :=
           some (encode_state env.cols env.n_ambulances env.patient env.ambulances hospitals'),
         reward := stepReward env.patient hosp travel_time, done := true,
         info := { reason := stepReason env.patient hosp,
                   ambulance := some amb_idx, hospital := some hosp_idx,
                   dist_hops := some dist, travel_time_min := some travel_time,
                   success := some success } }, env')

/-- Decoding of an action integer, env.py lines 77-78. -/
def decode_action (action n_hospitals : Nat) : Nat × Nat :=
  (action / n_hospitals, action % n_hospitals)

/-- The `QLearningAgent` fields (rl_agent.py).  The Q table is embedded as
a total function; floats become `ℚ`. -/
structure Agent where
  n_states : Nat
  n_actions : Nat
  Q : Nat → Nat → ℚ
  alpha : ℚ
  gamma : ℚ
  epsilon : ℚ
  min_epsilon : ℚ
  decay : ℚ

/-- Value of `np.max(Q[s])` over the row of length `n` (line 23 and 28 of
rl_agent.py); `n = 0` defaults to `Q s 0` where NumPy would raise. -/
def rowMax (Q : Nat → Nat → ℚ) (s : Nat) (n : Nat) : ℚ :=
  (List.range n).foldl (fun m a => max m (Q s a)) (Q s 0)

/-- Embedding of `np.where(row == maxv)[0]` (line 24): the increasing list of indices
of the row attaining the maximum. -/
def maxCandidates (ag : Agent) (state : Nat) : List Nat :=
  (List.range ag.n_actions).filter
    (fun a => decide (ag.Q state a = rowMax ag.Q state ag.n_actions))

/-- Embedding of `QLearningAgent.select_action`.  The two `random` draws are oracle
arguments: `u` is the `random.random()` result, `pick` drives both
`random.randrange` (explore) and `random.choice` (greedy tie-break). -/
def select_action (ag : Agent) (state : Nat) (u : ℚ) (pick : Nat) : Nat :=
  if u < ag.epsilon then
    pick % ag.n_actions
  else
    let candidates := maxCandidates ag state
    candidates.getD (pick % candidates.length) 0

/-- Embedding of `QLearningAgent.learn`: the one-step TD update followed by the guarded
epsilon decay of lines 32-34. -/
def learn (ag : Agent) (s a : Nat) (r : ℚ) (s_next : Nat) : Agent :=
  let best_next := rowMax ag.Q s_next ag.n_actions
  let td := r + ag.gamma * best_next - ag.Q s a
  let Q' : Nat → Nat → ℚ :=
    fun s' a' => if s' = s ∧ a' = a then ag.Q s a + ag.alpha * td else ag.Q s' a'
  let eps' := if ag.min_epsilon < ag.epsilon
              then max (ag.epsilon * ag.decay) ag.min_epsilon
              else ag.epsilon
  { ag with Q := Q', epsilon := eps' }

/-- The route length computed on the normal path of `step` (line 93 of
env.py), named for reuse in statements. -/
def stepDist (env : Env) (action : Nat) : Nat :=
  manhattan_zone_distance env.patient.zone
      (env.ambulances.getD (action / env.n_hospitals) default).zone env.cols
    + manhattan_zone_distance (env.ambulances.getD (action / env.n_hospitals) default).zone
        (env.hospitals.getD (action % env.n_hospitals) default).zone env.cols

/-- The hospital list after the normal path of `step`: the selected
hospital is occupied exactly when the step succeeded. -/
def stepHospitals (env : Env) (action : Nat) : List Hospital :=
  if stepSuccess env.patient (env.hospitals.getD (action % env.n_hospitals) default)
  then env.hospitals.set (action % env.n_hospitals)
         (occupy env.patient (env.hospitals.getD (action % env.n_hospitals) default))
  else env.hospitals

/- Concrete fixtures used by the witnesses, following the end-to-end
scenario of the specification: one hospital with a single free bed and no
ICU, one idle ambulance at zone 0, patient at zone 3, grid of 4 columns. -/

/-- Scenario hospital: one free bed, no ICU, trauma and general only. -/
def hosp0 : Hospital :=
  { id := 0, zone := 0, total_beds := 1, available_beds := 1,
    icu_total := 0, icu_available := 0,
    specialties := fun s =>
      match s with
      | .trauma => true
      | .general => true
      | _ => false }

/-- Scenario ambulance: idle at zone 0. -/
def amb0 : Ambulance := { id := 0, zone := 0, status := .idle }

/-- Scenario patient: zone 3, moderate severity, no required specialty. -/
def patient0 : Patient := { zone := 3, severity := 0, required_specialty := none }

/-- Scenario environment: 4-column grid, one hospital, one ambulance. -/
def env0 : Env :=
  { cols := 4, n_hospitals := 1, n_ambulances := 1,
    hospitals := [hosp0], ambulances := [amb0], patient := patient0 }

/-- The scenario environment with the hospital's last bed already taken. -/
def envBeds0 : Env := { env0 with hospitals := [{ hosp0 with available_beds := 0 }] }

/-- A small agent with an all-zero 2-action table and `epsilon = 0`,
below its configured `min_epsilon`. -/
def agent0 : Agent :=
  { n_states := 6, n_actions := 2, Q := fun _ _ => 0, alpha := 1/10,
    gamma := 49/50, epsilon := 0, min_epsilon := 1/100, decay := 1/2 }

/-- The same agent with exploration still above the floor. -/
def agentD : Agent := { agent0 with epsilon := 1/5 }

/-! ### Branch lemmas for `step` -/

/-- The invalid-action branch of `step`, env.py lines 81-82. -/
theorem step_invalid (env : Env) (action : Nat)
    (h : env.n_ambulances ≤ action / env.n_hospitals ∨
         env.n_hospitals ≤ action % env.n_hospitals) :
    step env action =
      ({ next_state := none, reward := -50, done := true,
         info := { reason := "invalid_action" } }, env) := by
  unfold step
  rw [if_pos h]

/-- The busy-ambulance branch of `step`, env.py lines 89-90. -/
theorem step_not_idle (env : Env) (action : Nat)
    (hA : action / env.n_hospitals < env.n_ambulances)
    (hH : 0 < env.n_hospitals)
    (hb : (env.ambulances.getD (action / env.n_hospitals) default).status ≠ AmbStatus.idle) :
    step env action =
      ({ next_state := none, reward := -40, done := true,
         info := { reason := "ambulance_not_idle" } }, env) := by
  have h1 : ¬(env.n_ambulances ≤ action / env.n_hospitals ∨
              env.n_hospitals ≤ action % env.n_hospitals) := by
    push_neg
    exact ⟨hA, Nat.mod_lt _ hH⟩
  unfold step
  rw [if_neg h1]
  simp only [ne_eq, ite_not]
  rw [if_neg (by simpa using hb)]

/-- The normal branch of `step` in closed form. -/
theorem step_normal (env : Env) (action : Nat)
    (hA : action / env.n_hospitals < env.n_ambulances)
    (hH : 0 < env.n_hospitals)
    (hidle : (env.ambulances.getD (action / env.n_hospitals) default).status = AmbStatus.idle) :
    step env action =
      ({ next_state := some (encode_state env.cols env.n_ambulances env.patient
           env.ambulances (stepHospitals env action)),
         reward := stepReward env.patient (env.hospitals.getD (action % env.n_hospitals) default)
           ((stepDist env action : ℚ) * 6),
         done := true,
         info := { reason := stepReason env.patient
                     (env.hospitals.getD (action % env.n_hospitals) default),
                   ambulance := some (action / env.n_hospitals),
                   hospital := some (action % env.n_hospitals),
                   dist_hops := some (stepDist env action),
                   travel_time_min := some ((stepDist env action : ℚ) * 6),
                   success := some (stepSuccess env.patient
                     (env.hospitals.getD (action % env.n_hospitals) default)) } },
       { env with hospitals := stepHospitals env action }) := by
  have h1 : ¬(env.n_ambulances ≤ action / env.n_hospitals ∨
              env.n_hospitals ≤ action % env.n_hospitals) := by
    push_neg
    exact ⟨hA, Nat.mod_lt _ hH⟩
  unfold step stepDist stepHospitals
  rw [if_neg h1]
  simp only [ne_eq, ite_not]
  rw [if_pos hidle]

/-! ### Reward and outcome decomposition -/

/-- The `spec_ok` flag agrees with `Option.all` over the required specialty. -/
theorem specOkB_eq (p : Patient) (h : Hospital) :
    specOkB p h = p.required_specialty.all h.specialties := by
  unfold specOkB
  cases p.required_specialty <;> rfl

/-- The `success` flag is cleared exactly by an ICU failure or a bed failure. -/
theorem stepSuccess_eq_false_iff (p : Patient) (h : Hospital) :
    stepSuccess p h = false ↔
      ((p.severity = 2 ∧ h.icu_available ≤ 0) ∨ h.available_beds ≤ 0) := by
  unfold stepSuccess icuFailB bedFailB
  simp only [Bool.not_eq_false', Bool.or_eq_true, Bool.and_eq_true, decide_eq_true_eq]

/-- The sequential reward mutations of `step` sum to five independent
additive terms. -/
theorem stepReward_eq (p : Patient) (h : Hospital) (tt : ℚ) :
    stepReward p h tt =
      (if p.severity = 2 ∧ h.icu_available ≤ 0 then -40 else 0)
      + (if h.available_beds ≤ 0 then -20 else 0)
      + (if p.required_specialty.all h.specialties then 0 else -10)
      - (if p.severity = 2 then tt * (3/2) else tt) / 2
      + (if (p.severity = 2 ∧ h.icu_available ≤ 0) ∨ h.available_beds ≤ 0
         then -5 else 50) := by
  unfold stepReward stepSuccess
  rw [← specOkB_eq]
  unfold icuFailB bedFailB
  simp only [Bool.or_eq_true, Bool.not_eq_true', Bool.and_eq_true, decide_eq_true_eq,
    Bool.or_eq_false_iff, Bool.and_eq_false_iff, decide_eq_false_iff_not]
  split_ifs <;> first | omega | ring

/-- The `success` flag holds exactly when the ICU check (for critical patients)
and the bed check both pass. -/
theorem stepSuccess_eq_true_iff (p : Patient) (h : Hospital) :
    stepSuccess p h = true ↔
      ((p.severity = 2 → 0 < h.icu_available) ∧ 0 < h.available_beds) := by
  unfold stepSuccess icuFailB bedFailB
  simp only [Bool.not_eq_eq_eq_not, Bool.not_true, Bool.or_eq_false_iff,
    Bool.and_eq_false_iff, decide_eq_false_iff_not]
  omega

/-- Writing into a list and reading the same position back. -/
theorem getD_set_self (l : List Hospital) (i : Nat) (x d : Hospital)
    (h : i < l.length) : (l.set i x).getD i d = x := by
  rw [List.getD_eq_getElem _ _ (by simpa using h), List.getElem_set_self]

/-- Peeling the last column off the row maximum. -/
theorem rowMax_succ (Q : Nat → Nat → ℚ) (s n : Nat) :
    rowMax Q s (n + 1) = max (rowMax Q s n) (Q s n) := by
  unfold rowMax
  rw [List.range_succ, List.foldl_append]
  rfl

/-- The row maximum is attained at some action index. -/
theorem rowMax_mem (Q : Nat → Nat → ℚ) (s n : Nat) (h : 0 < n) :
    ∃ a, a < n ∧ rowMax Q s n = Q s a := by
  induction n with
  | zero => omega
  | succ n ih =>
    rw [rowMax_succ]
    by_cases hn : 0 < n
    · obtain ⟨a, ha, he⟩ := ih hn
      by_cases hle : rowMax Q s n ≤ Q s n
      · exact ⟨n, by omega, by rw [max_eq_right hle]⟩
      · exact ⟨a, by omega, by rw [max_eq_left (le_of_not_le hle)]; exact he⟩
    · have hn0 : n = 0 := by omega
      subst hn0
      exact ⟨0, by omega, by simp [rowMax]⟩

/-- The row maximum dominates every entry of the row. -/
theorem le_rowMax (Q : Nat → Nat → ℚ) (s n a : Nat) (h : a < n) :
    Q s a ≤ rowMax Q s n := by
  induction n with
  | zero => omega
  | succ n ih =>
    rw [rowMax_succ]
    by_cases ha : a < n
    · exact le_trans (ih ha) (le_max_left _ _)
    · have : a = n := by omega
      subst this
      exact le_max_right _ _

/-! ### Claims -/

/-- C2: in `step`, the three constraint penalties are additive and
independent — `-40` iff the patient is critical and the hospital has no
free ICU slot, `-20` iff it has no free bed, `-10` iff a required
specialty is not offered; the time penalty and the success bonus/failure
penalty complete the sum.  `success` is `false` exactly when the ICU or
bed penalty triggered, and a failed step carries the extra `-5` in place
of the `+50` bonus. -/
theorem claim_C2 (env : Env) (action : Nat)
    (hA : action / env.n_hospitals < env.n_ambulances)
    (hH : 0 < env.n_hospitals)
    (hidle : (env.ambulances.getD (action / env.n_hospitals) default).status = AmbStatus.idle) :
    (step env action).1.reward =
        (if env.patient.severity = 2 ∧
            (env.hospitals.getD (action % env.n_hospitals) default).icu_available ≤ 0
         then -40 else 0)
      + (if (env.hospitals.getD (action % env.n_hospitals) default).available_beds ≤ 0
         then -20 else 0)
      + (if env.patient.required_specialty.all
            (env.hospitals.getD (action % env.n_hospitals) default).specialties
         then 0 else -10)
      - (if env.patient.severity = 2
         then ((stepDist env action : ℚ) * 6) * (3/2)
         else (stepDist env action : ℚ) * 6) / 2
      + (if (env.patient.severity = 2 ∧
              (env.hospitals.getD (action % env.n_hospitals) default).icu_available ≤ 0) ∨
            (env.hospitals.getD (action % env.n_hospitals) default).available_beds ≤ 0
         then -5 else 50)
    ∧ ((step env action).1.info.success = some false ↔
        ((env.patient.severity = 2 ∧
           (env.hospitals.getD (action % env.n_hospitals) default).icu_available ≤ 0) ∨
         (env.hospitals.getD (action % env.n_hospitals) default).available_beds ≤ 0)) := by
  rw [step_normal env action hA hH hidle]
  refine ⟨stepReward_eq _ _ _, ?_⟩
  simp only [Option.some.injEq]
  exact stepSuccess_eq_false_iff _ _

/-- C2 witness: the one-hospital scenario — no penalty triggers, the
reward is `50 − 9 = 41` and the step succeeds. -/
theorem claim_C2_witness :
    (step env0 0).1.reward =
        (if env0.patient.severity = 2 ∧
            (env0.hospitals.getD (0 % env0.n_hospitals) default).icu_available ≤ 0
         then -40 else 0)
      + (if (env0.hospitals.getD (0 % env0.n_hospitals) default).available_beds ≤ 0
         then -20 else 0)
      + (if env0.patient.required_specialty.all
            (env0.hospitals.getD (0 % env0.n_hospitals) default).specialties
         then 0 else -10)
      - (if env0.patient.severity = 2
         then ((stepDist env0 0 : ℚ) * 6) * (3/2)
         else (stepDist env0 0 : ℚ) * 6) / 2
      + (if (env0.patient.severity = 2 ∧
              (env0.hospitals.getD (0 % env0.n_hospitals) default).icu_available ≤ 0) ∨
            (env0.hospitals.getD (0 % env0.n_hospitals) default).available_beds ≤ 0
         then -5 else 50) := by
  exact (claim_C2 env0 0 (by decide) (by decide) (by decide)).1

/-- C1: on a valid step with an idle ambulance whose bed check passes and,
for a critical patient, whose ICU check passes, the reward carries the
`+50` bonus, the selected hospital loses exactly one bed (and one ICU
slot when the patient is critical); for a severity-0 patient with no
required specialty the total reward is `50 − hops·6/2` and the step
succeeds. -/
theorem claim_C1 (env : Env) (action : Nat)
    (hA : action / env.n_hospitals < env.n_ambulances)
    (hH : 0 < env.n_hospitals)
    (hidle : (env.ambulances.getD (action / env.n_hospitals) default).status = AmbStatus.idle)
    (hlen : env.hospitals.length = env.n_hospitals)
    (hbed : 0 < (env.hospitals.getD (action % env.n_hospitals) default).available_beds)
    (hicu : env.patient.severity = 2 →
      0 < (env.hospitals.getD (action % env.n_hospitals) default).icu_available) :
    (step env action).1.reward =
        (if env.patient.required_specialty.all
            (env.hospitals.getD (action % env.n_hospitals) default).specialties
         then 0 else -10)
      - (if env.patient.severity = 2
         then ((stepDist env action : ℚ) * 6) * (3/2)
         else (stepDist env action : ℚ) * 6) / 2
      + 50
    ∧ ((step env action).2.hospitals.getD (action % env.n_hospitals) default).available_beds
        = (env.hospitals.getD (action % env.n_hospitals) default).available_beds - 1
    ∧ (env.patient.severity = 2 →
        ((step env action).2.hospitals.getD (action % env.n_hospitals) default).icu_available
          = (env.hospitals.getD (action % env.n_hospitals) default).icu_available - 1)
    ∧ (env.patient.severity = 0 → env.patient.required_specialty = none →
        ((step env action).1.reward = 50 - ((stepDist env action : ℚ) * 6) / 2
          ∧ (step env action).1.info.success = some true)) := by
  have hsucc : stepSuccess env.patient
      (env.hospitals.getD (action % env.n_hospitals) default) = true :=
    (stepSuccess_eq_true_iff _ _).mpr ⟨hicu, hbed⟩
  have hicuN : ¬(env.patient.severity = 2 ∧
      (env.hospitals.getD (action % env.n_hospitals) default).icu_available ≤ 0) := by
    rintro ⟨h2, hle⟩
    exact absurd (hicu h2) (not_lt.mpr hle)
  have hbedN : ¬(env.hospitals.getD (action % env.n_hospitals) default).available_beds ≤ 0 :=
    not_le.mpr hbed
  have hdisjN : ¬((env.patient.severity = 2 ∧
      (env.hospitals.getD (action % env.n_hospitals) default).icu_available ≤ 0) ∨
      (env.hospitals.getD (action % env.n_hospitals) default).available_beds ≤ 0) :=
    fun hd => hd.elim hicuN hbedN
  have hmod : action % env.n_hospitals < env.hospitals.length := by
    rw [hlen]
    exact Nat.mod_lt _ hH
  have hset : stepHospitals env action =
      env.hospitals.set (action % env.n_hospitals)
        (occupy env.patient (env.hospitals.getD (action % env.n_hospitals) default)) := by
    unfold stepHospitals
    rw [if_pos hsucc]
  rw [step_normal env action hA hH hidle]
  refine ⟨?_, ?_, ?_, ?_⟩
  · rw [stepReward_eq, if_neg hicuN, if_neg hbedN, if_neg hdisjN]
    ring
  · show ((stepHospitals env action).getD (action % env.n_hospitals) default).available_beds = _
    rw [hset, getD_set_self _ _ _ _ hmod]
    unfold occupy
    simp only
    rw [if_pos hbed]
  · intro h2
    show ((stepHospitals env action).getD (action % env.n_hospitals) default).icu_available = _
    rw [hset, getD_set_self _ _ _ _ hmod]
    unfold occupy
    simp only
    rw [if_pos ⟨h2, hicu h2⟩]
  · intro h0 hnone
    constructor
    · rw [stepReward_eq, if_neg hicuN, if_neg hbedN, if_neg hdisjN]
      simp only [hnone, h0, Option.all]
      norm_num
      ring
    · show some (stepSuccess _ _) = some true
      rw [hsucc]

/-- C1 witness: the one-hospital scenario with 3 hops — reward `41`,
the single bed is taken. -/
theorem claim_C1_witness :
    (step env0 0).1.reward = 50 - ((stepDist env0 0 : ℚ) * 6) / 2
    ∧ ((step env0 0).2.hospitals.getD (0 % env0.n_hospitals) default).available_beds
        = (env0.hospitals.getD (0 % env0.n_hospitals) default).available_beds - 1 := by
  have h := claim_C1 env0 0 (by decide) (by decide) (by decide) (by decide)
    (by decide) (by decide)
  exact ⟨(h.2.2.2 rfl rfl).1, h.2.1⟩

/-- C3: a step onto a hospital with no free bed reports failure and
leaves the environment unchanged, and bed counts never go negative
across any sequence of `reset`/`step` calls whose generated hospitals
start non-negative. -/
theorem claim_C3 :
    (∀ (env : Env) (action : Nat),
      action / env.n_hospitals < env.n_ambulances →
      0 < env.n_hospitals →
      (env.ambulances.getD (action / env.n_hospitals) default).status = AmbStatus.idle →
      (env.hospitals.getD (action % env.n_hospitals) default).available_beds = 0 →
      (step env action).1.info.success = some false ∧ (step env action).2 = env) ∧
    (∀ (env : Env) (action : Nat),
      (∀ h ∈ env.hospitals, 0 ≤ h.available_beds) →
      ∀ h ∈ (step env action).2.hospitals, 0 ≤ h.available_beds) ∧
    (∀ (env : Env) (hs : List Hospital) (ambs : List Ambulance) (p : Patient),
      (∀ h ∈ hs, 0 ≤ h.available_beds) →
      ∀ h ∈ (reset env hs ambs p).2.hospitals, 0 ≤ h.available_beds) := by
  refine ⟨?_, ?_, ?_⟩
  · intro env action hA hH hidle hbed0
    have hfail : stepSuccess env.patient
        (env.hospitals.getD (action % env.n_hospitals) default) = false :=
      (stepSuccess_eq_false_iff _ _).mpr (Or.inr (le_of_eq hbed0))
    have hsh : stepHospitals env action = env.hospitals := by
      unfold stepHospitals
      rw [if_neg (by rw [hfail]; exact Bool.false_ne_true)]
    rw [step_normal env action hA hH hidle]
    constructor
    · show some (stepSuccess _ _) = some false
      rw [hfail]
    · show ({ env with hospitals := stepHospitals env action } : Env) = env
      rw [hsh]
  · intro env action hnn
    by_cases hg : env.n_ambulances ≤ action / env.n_hospitals ∨
        env.n_hospitals ≤ action % env.n_hospitals
    · rw [step_invalid env action hg]
      exact hnn
    · push_neg at hg
      have hH : 0 < env.n_hospitals := Nat.lt_of_le_of_lt (Nat.zero_le _) hg.2
      by_cases hidle :
          (env.ambulances.getD (action / env.n_hospitals) default).status = AmbStatus.idle
      · rw [step_normal env action hg.1 hH hidle]
        show ∀ h ∈ stepHospitals env action, 0 ≤ h.available_beds
        unfold stepHospitals
        split_ifs with hs
        · intro h hmem
          rcases List.mem_or_eq_of_mem_set hmem with hm | he
          · exact hnn h hm
          · subst he
            unfold occupy
            simp only
            split_ifs with hb
            · omega
            · by_cases hi : action % env.n_hospitals < env.hospitals.length
              · exact hnn _ (List.getD_eq_getElem _ _ hi ▸ List.getElem_mem hi)
              · rw [List.getD_eq_default _ _ (Nat.le_of_not_lt hi)]
                exact le_refl 0
        · exact hnn
      · rw [step_not_idle env action hg.1 hH hidle]
        exact hnn
  · intro env hs ambs p hnn
    exact hnn

/-- C3 witness: the scenario with the last bed already taken — failure
reported, environment untouched. -/
theorem claim_C3_witness :
    (step envBeds0 0).1.info.success = some false ∧ (step envBeds0 0).2 = envBeds0 :=
  claim_C3.1 envBeds0 0 (by decide) (by decide) (by decide) (by decide)

/-- C4: on a valid step, `dist_hops` is the sum of the two Manhattan zone
distances (patient→ambulance and ambulance→hospital on the configured
column count), `travel_time_min` is `hops × 6`, and the continuous time
penalty subtracted from the reward is `travel_time/2`, with the travel
time scaled by `3/2` first when the patient is critical. -/
theorem claim_C4 (env : Env) (action : Nat)
    (hA : action / env.n_hospitals < env.n_ambulances)
    (hH : 0 < env.n_hospitals)
    (hidle : (env.ambulances.getD (action / env.n_hospitals) default).status = AmbStatus.idle) :
    (step env action).1.info.dist_hops =
      some (manhattan_zone_distance env.patient.zone
              (env.ambulances.getD (action / env.n_hospitals) default).zone env.cols
            + manhattan_zone_distance
                (env.ambulances.getD (action / env.n_hospitals) default).zone
                (env.hospitals.getD (action % env.n_hospitals) default).zone env.cols)
    ∧ (step env action).1.info.travel_time_min = some ((stepDist env action : ℚ) * 6)
    ∧ (env.patient.severity ≠ 2 →
        (step env action).1.reward =
          ((if env.patient.severity = 2 ∧
              (env.hospitals.getD (action % env.n_hospitals) default).icu_available ≤ 0
            then -40 else 0)
           + (if (env.hospitals.getD (action % env.n_hospitals) default).available_beds ≤ 0
              then -20 else 0)
           + (if env.patient.required_specialty.all
                (env.hospitals.getD (action % env.n_hospitals) default).specialties
              then 0 else -10)
           + (if (env.patient.severity = 2 ∧
                   (env.hospitals.getD (action % env.n_hospitals) default).icu_available ≤ 0) ∨
                 (env.hospitals.getD (action % env.n_hospitals) default).available_beds ≤ 0
              then -5 else 50))
          - ((stepDist env action : ℚ) * 6) / 2)
    ∧ (env.patient.severity = 2 →
        (step env action).1.reward =
          ((if env.patient.severity = 2 ∧
              (env.hospitals.getD (action % env.n_hospitals) default).icu_available ≤ 0
            then -40 else 0)
           + (if (env.hospitals.getD (action % env.n_hospitals) default).available_beds ≤ 0
              then -20 else 0)
           + (if env.patient.required_specialty.all
                (env.hospitals.getD (action % env.n_hospitals) default).specialties
              then 0 else -10)
           + (if (env.patient.severity = 2 ∧
                   (env.hospitals.getD (action % env.n_hospitals) default).icu_available ≤ 0) ∨
                 (env.hospitals.getD (action % env.n_hospitals) default).available_beds ≤ 0
              then -5 else 50))
          - (((stepDist env action : ℚ) * 6) * (3/2)) / 2) := by
  rw [step_normal env action hA hH hidle]
  refine ⟨rfl, rfl, ?_, ?_⟩
  · intro hs2
    rw [stepReward_eq, if_neg hs2]
    ring
  · intro hs2
    rw [stepReward_eq, if_pos hs2]
    ring

/-- C4 witness: scenario distances — 3 hops patient→ambulance, 0 hops
ambulance→hospital, 18 minutes of travel. -/
theorem claim_C4_witness :
    (step env0 0).1.info.dist_hops =
      some (manhattan_zone_distance env0.patient.zone
              (env0.ambulances.getD (0 / env0.n_hospitals) default).zone env0.cols
            + manhattan_zone_distance
                (env0.ambulances.getD (0 / env0.n_hospitals) default).zone
                (env0.hospitals.getD (0 % env0.n_hospitals) default).zone env0.cols)
    ∧ (step env0 0).1.info.travel_time_min = some ((stepDist env0 0 : ℚ) * 6) := by
  have h := claim_C4 env0 0 (by decide) (by decide) (by decide)
  exact ⟨h.1, h.2.1⟩

/-- C5 counterexample: an agent whose `epsilon` (0) already sits below
`min_epsilon` (1/100).  The claimed update — multiply by the decay factor
and floor at the minimum — would raise `epsilon` to 1/100, but `learn`
leaves it at 0: the decay branch only runs when `epsilon > min_epsilon`. -/
theorem claim_C5_counterexample :
    (learn agent0 0 0 0 0).epsilon ≠ max (agent0.epsilon * agent0.decay) agent0.min_epsilon := by
  norm_num [learn, agent0]

/-- C5 (amended): `learn` rewrites exactly the entry `Q[s,a]` by the
one-step temporal-difference rule with the true row maximum of the next
state; every other entry is untouched.  `epsilon` is multiplied by the
decay factor and floored at `min_epsilon` whenever it is still above
`min_epsilon`, and left unchanged otherwise; consequently, for a decay
factor in `(0,1]` and non-negative `epsilon`, `epsilon` never increases
across `learn` calls. -/
theorem claim_C5 (ag : Agent) (s a : Nat) (r : ℚ) (s_next : Nat) :
    ((learn ag s a r s_next).Q s a =
        ag.Q s a + ag.alpha * (r + ag.gamma * rowMax ag.Q s_next ag.n_actions - ag.Q s a)
      ∧ (∀ a', a' < ag.n_actions → ag.Q s_next a' ≤ rowMax ag.Q s_next ag.n_actions)
      ∧ (0 < ag.n_actions → ∃ a', a' < ag.n_actions ∧
          rowMax ag.Q s_next ag.n_actions = ag.Q s_next a'))
    ∧ (∀ s' a', ¬(s' = s ∧ a' = a) → (learn ag s a r s_next).Q s' a' = ag.Q s' a')
    ∧ (ag.min_epsilon < ag.epsilon →
        (learn ag s a r s_next).epsilon = max (ag.epsilon * ag.decay) ag.min_epsilon)
    ∧ (ag.epsilon ≤ ag.min_epsilon → (learn ag s a r s_next).epsilon = ag.epsilon)
    ∧ (0 ≤ ag.epsilon → ag.decay ≤ 1 →
        (learn ag s a r s_next).epsilon ≤ ag.epsilon) := by
  refine ⟨⟨?_, fun a' ha' => le_rowMax _ _ _ _ ha',
      fun h => rowMax_mem _ _ _ h⟩, ?_, ?_, ?_, ?_⟩
  · simp [learn]
  · intro s' a' hne
    simp only [learn]
    rw [if_neg hne]
  · intro hlt
    simp only [learn]
    rw [if_pos hlt]
  · intro hle
    simp only [learn]
    rw [if_neg (not_lt.mpr hle)]
  · intro h0 hdec
    simp only [learn]
    split_ifs with h
    · exact max_le (mul_le_of_le_one_right h0 hdec) (le_of_lt h)
    · exact le_refl _

/-- C5 witness: an agent above the exploration floor — the TD update and
the floored decay both take the claimed form. -/
theorem claim_C5_witness :
    agentD.min_epsilon < agentD.epsilon ∧
    (learn agentD 0 0 1 0).epsilon = max (agentD.epsilon * agentD.decay) agentD.min_epsilon ∧
    (learn agentD 0 0 1 0).Q 0 0 =
      agentD.Q 0 0 + agentD.alpha *
        (1 + agentD.gamma * rowMax agentD.Q 0 agentD.n_actions - agentD.Q 0 0) := by
  have h := claim_C5 agentD 0 0 1 0
  exact ⟨by norm_num [agentD, agent0], h.2.2.1 (by norm_num [agentD, agent0]), h.1.1⟩

/-- C6: an action whose decoded ambulance or hospital index is out of
range yields reward exactly `-50`, a terminal outcome with reason
`invalid_action`, no next state, and an unchanged environment. -/
theorem claim_C6 (env : Env) (action : Nat)
    (h : env.n_ambulances ≤ action / env.n_hospitals ∨
         env.n_hospitals ≤ action % env.n_hospitals) :
    (step env action).1.reward = -50 ∧ (step env action).1.done = true ∧
      (step env action).1.info.reason = "invalid_action" ∧
      (step env action).1.next_state = none ∧ (step env action).2 = env := by
  rw [step_invalid env action h]
  exact ⟨rfl, rfl, rfl, rfl, rfl⟩

/-- C6 witness: action 7 on the one-ambulance scenario decodes to
ambulance index 7, out of range. -/
theorem claim_C6_witness :
    (env0.n_ambulances ≤ 7 / env0.n_hospitals ∨
      env0.n_hospitals ≤ 7 % env0.n_hospitals) ∧
    ((step env0 7).1.reward = -50 ∧ (step env0 7).1.done = true ∧
      (step env0 7).1.info.reason = "invalid_action" ∧
      (step env0 7).1.next_state = none ∧ (step env0 7).2 = env0) :=
  ⟨Or.inl (by decide), claim_C6 env0 7 (Or.inl (by decide))⟩

/-- C7: encoding a valid `(ambulance_index, hospital_index)` pair as
`ambulance_index * n_hospitals + hospital_index` and decoding with
`div`/`mod` recovers the pair. -/
theorem claim_C7 (amb_idx hosp_idx n_ambulances n_hospitals : Nat)
    (_ha : amb_idx < n_ambulances) (hh : hosp_idx < n_hospitals) :
    decode_action (amb_idx * n_hospitals + hosp_idx) n_hospitals = (amb_idx, hosp_idx) := by
  have hpos : 0 < n_hospitals := Nat.lt_of_le_of_lt (Nat.zero_le _) hh
  unfold decode_action
  simp only [Prod.mk.injEq]
  constructor
  · rw [Nat.mul_comm amb_idx n_hospitals, Nat.mul_add_div hpos,
      Nat.div_eq_of_lt hh, Nat.add_zero]
  · rw [Nat.mul_comm amb_idx n_hospitals, Nat.mul_add_mod, Nat.mod_eq_of_lt hh]

/-- C7 witness: pair `(2, 3)` with 5 ambulances and 4 hospitals encodes
to 11 and decodes back. -/
theorem claim_C7_witness :
    2 < 5 ∧ 3 < 4 ∧ decode_action (2 * 4 + 3) 4 = (2, 3) :=
  ⟨by decide, by decide, claim_C7 2 3 5 4 (by decide) (by decide)⟩

/-- Bound: `np.argmin` returns an index of a nonempty list. -/
theorem argminIdx_lt_length (l : List Nat) (h : l ≠ []) : argminIdx l < l.length := by
  induction l with
  | nil => exact absurd rfl h
  | cons x xs ih =>
    cases xs with
    | nil => simp [argminIdx]
    | cons y ys =>
      by_cases hx : x ≤ listMin (y :: ys)
      · simp [argminIdx, hx]
      · have ih' := ih (by simp)
        simp only [argminIdx, hx, if_false]
        simp only [List.length_cons] at ih' ⊢
        omega

/-- The hospital-match flag is a single bit. -/
theorem hospHasFlag_le_one (p : Patient) (hs : List Hospital) : hospHasFlag p hs ≤ 1 := by
  unfold hospHasFlag
  cases p.required_specialty with
  | none => exact le_refl 1
  | some s =>
      dsimp only
      split_ifs <;> omega

/-- The encoded state index is below `3 · n_ambulances · 2` whenever the
patient severity is in `{0,1,2}` and there is at least one ambulance. -/
theorem encode_state_lt (cols n_ambulances : Nat) (p : Patient)
    (ambs : List Ambulance) (hs : List Hospital)
    (hsev : p.severity < 3) (hlen : ambs.length = n_ambulances)
    (hpos : 0 < n_ambulances) :
    encode_state cols n_ambulances p ambs hs < 3 * n_ambulances * 2 := by
  have h1 : nearestAmbIdx cols p ambs < n_ambulances := by
    unfold nearestAmbIdx
    have hne : ambs.map (fun a => manhattan_zone_distance p.zone a.zone cols) ≠ [] := by
      have : ambs ≠ [] := List.ne_nil_of_length_pos (hlen ▸ hpos)
      simpa using this
    have := argminIdx_lt_length _ hne
    rw [List.length_map, hlen] at this
    exact this
  have h2 : hospHasFlag p hs ≤ 1 := hospHasFlag_le_one p hs
  have h3 : p.severity * (n_ambulances * 2) ≤ 2 * (n_ambulances * 2) :=
    Nat.mul_le_mul_right _ (by omega)
  unfold encode_state
  omega

/-- C8: every state index produced by `reset` and every state index
produced by `step` lies in `[0, 3 · n_ambulances · 2)`, given severity in
`{0,1,2}` and at least one ambulance. -/
theorem claim_C8 :
    (∀ (env : Env) (hs : List Hospital) (ambs : List Ambulance) (p : Patient),
      p.severity < 3 → ambs.length = env.n_ambulances → 0 < env.n_ambulances →
      (reset env hs ambs p).1 < 3 * env.n_ambulances * 2) ∧
    (∀ (env : Env) (action : Nat) (st : Nat),
      env.patient.severity < 3 → env.ambulances.length = env.n_ambulances →
      0 < env.n_ambulances →
      (step env action).1.next_state = some st → st < 3 * env.n_ambulances * 2) := by
  constructor
  · intro env hs ambs p hsev hlen hpos
    exact encode_state_lt _ _ _ _ _ hsev hlen hpos
  · intro env action st hsev hlen hpos hsome
    by_cases hg : env.n_ambulances ≤ action / env.n_hospitals ∨
        env.n_hospitals ≤ action % env.n_hospitals
    · rw [step_invalid env action hg] at hsome
      exact absurd hsome (by simp)
    · push_neg at hg
      have hH : 0 < env.n_hospitals := Nat.lt_of_le_of_lt (Nat.zero_le _) hg.2
      by_cases hidle :
          (env.ambulances.getD (action / env.n_hospitals) default).status = AmbStatus.idle
      · rw [step_normal env action hg.1 hH hidle] at hsome
        have hst : st = encode_state env.cols env.n_ambulances env.patient env.ambulances
            (stepHospitals env action) := by
          exact (Option.some.injEq _ _ ▸ hsome).symm
        rw [hst]
        exact encode_state_lt _ _ _ _ _ hsev hlen hpos
      · rw [step_not_idle env action hg.1 hH hidle] at hsome
        exact absurd hsome (by simp)

/-- C8 witness: the scenario `reset` output and the post-step state of
action 0 both lie below `3 · 1 · 2 = 6`. -/
theorem claim_C8_witness :
    (reset env0 [hosp0] [amb0] patient0).1 < 3 * env0.n_ambulances * 2 ∧
    ((step env0 0).1.next_state = some 1 →
      1 < 3 * env0.n_ambulances * 2) :=
  ⟨claim_C8.1 env0 [hosp0] [amb0] patient0 (by decide) (by decide) (by decide),
   claim_C8.2 env0 0 1 (by decide) (by decide) (by decide)⟩

/-- C10: the first component of `step` is `none` exactly on the
invalid-action and busy-ambulance branches; on the normal path it is the
state index encoded against the post-step hospital list. -/
theorem claim_C10 (env : Env) (action : Nat) (hH : 0 < env.n_hospitals) :
    ((step env action).1.next_state = none ↔
      env.n_ambulances ≤ action / env.n_hospitals ∨
      (env.ambulances.getD (action / env.n_hospitals) default).status ≠ AmbStatus.idle) ∧
    (action / env.n_hospitals < env.n_ambulances →
      (env.ambulances.getD (action / env.n_hospitals) default).status = AmbStatus.idle →
      (step env action).1.next_state =
        some (encode_state env.cols env.n_ambulances env.patient env.ambulances
          (step env action).2.hospitals)) := by
  by_cases hA : action / env.n_hospitals < env.n_ambulances
  · by_cases hidle :
        (env.ambulances.getD (action / env.n_hospitals) default).status = AmbStatus.idle
    · rw [step_normal env action hA hH hidle]
      constructor
      · exact iff_of_false (by simp) (by push_neg; exact ⟨hA, hidle⟩)
      · intro _ _
        rfl
    · rw [step_not_idle env action hA hH hidle]
      constructor
      · exact iff_of_true rfl (Or.inr hidle)
      · intro _ h
        exact absurd h hidle
  · rw [step_invalid env action (Or.inl (Nat.not_lt.mp hA))]
    constructor
    · exact iff_of_true rfl (Or.inl (Nat.not_lt.mp hA))
    · intro h _
      exact absurd h hA

/-- Membership in the greedy candidate list. -/
theorem mem_maxCandidates (ag : Agent) (state i : Nat) :
    i ∈ maxCandidates ag state ↔
      i < ag.n_actions ∧ ag.Q state i = rowMax ag.Q state ag.n_actions := by
  unfold maxCandidates
  simp [List.mem_filter, List.mem_range]

/-- The candidate list has no duplicate indices. -/
theorem maxCandidates_nodup (ag : Agent) (state : Nat) :
    (maxCandidates ag state).Nodup :=
  (List.nodup_range _).filter _

/-- With at least one action, some index attains the maximum. -/
theorem maxCandidates_ne_nil (ag : Agent) (state : Nat) (h : 0 < ag.n_actions) :
    maxCandidates ag state ≠ [] := by
  obtain ⟨a, ha, he⟩ := rowMax_mem ag.Q state ag.n_actions h
  intro hnil
  have hm : a ∈ maxCandidates ag state := (mem_maxCandidates _ _ _).mpr ⟨ha, he.symm⟩
  rw [hnil] at hm
  exact absurd hm (List.not_mem_nil a)

/-- C9: with `epsilon = 0` the agent is purely greedy — the returned
index always attains the row maximum, and the uniform tie-break oracle
reaches every maximizing index through exactly one draw below the
candidate count, so ties are broken uniformly with no positional bias. -/
theorem claim_C9 (ag : Agent) (state : Nat) (u : ℚ)
    (hε : ag.epsilon = 0) (hu : 0 ≤ u) (hn : 0 < ag.n_actions) :
    (∀ pick, ag.Q state (select_action ag state u pick) =
      rowMax ag.Q state ag.n_actions) ∧
    (∀ i, (i < ag.n_actions ∧ ag.Q state i = rowMax ag.Q state ag.n_actions) ↔
      ∃! k, k < (maxCandidates ag state).length ∧ select_action ag state u k = i) := by
  have hnu : ¬(u < ag.epsilon) := by
    rw [hε]
    exact not_lt.mpr hu
  have hget : ∀ pick, select_action ag state u pick =
      (maxCandidates ag state).getD (pick % (maxCandidates ag state).length) 0 := by
    intro pick
    unfold select_action
    rw [if_neg hnu]
  have hL : 0 < (maxCandidates ag state).length :=
    List.length_pos.mpr (maxCandidates_ne_nil ag state hn)
  constructor
  · intro pick
    rw [hget]
    have hm : pick % (maxCandidates ag state).length < (maxCandidates ag state).length :=
      Nat.mod_lt _ hL
    have hmem : (maxCandidates ag state).getD (pick % (maxCandidates ag state).length) 0
        ∈ maxCandidates ag state := by
      rw [List.getD_eq_getElem _ _ hm]
      exact List.getElem_mem hm
    exact ((mem_maxCandidates _ _ _).mp hmem).2
  · intro i
    constructor
    · intro hi
      have hmem : i ∈ maxCandidates ag state := (mem_maxCandidates _ _ _).mpr hi
      obtain ⟨k, hk, he⟩ := List.mem_iff_getElem.mp hmem
      refine ⟨k, ⟨hk, ?_⟩, ?_⟩
      · rw [hget, Nat.mod_eq_of_lt hk, List.getD_eq_getElem _ _ hk, he]
      · rintro k' ⟨hk', he'⟩
        rw [hget, Nat.mod_eq_of_lt hk', List.getD_eq_getElem _ _ hk'] at he'
        have hinj := List.nodup_iff_injective_get.mp (maxCandidates_nodup ag state)
        have : (maxCandidates ag state).get ⟨k', hk'⟩ = (maxCandidates ag state).get ⟨k, hk⟩ := by
          rw [List.get_eq_getElem, List.get_eq_getElem]
          rw [he', he]
        have := hinj this
        exact congrArg Fin.val this
    · rintro ⟨k, ⟨hk, he⟩, _⟩
      rw [hget, Nat.mod_eq_of_lt hk, List.getD_eq_getElem _ _ hk] at he
      have hmem : i ∈ maxCandidates ag state := he ▸ List.getElem_mem hk
      exact (mem_maxCandidates _ _ _).mp hmem

/-- C9 witness: on the all-zero two-action table both actions maximize;
the greedy result at draw 0 attains the maximum and index 1 is reached
by exactly one draw. -/
theorem claim_C9_witness :
    agent0.Q 0 (select_action agent0 0 0 0) = rowMax agent0.Q 0 agent0.n_actions ∧
    (1 < agent0.n_actions ∧ agent0.Q 0 1 = rowMax agent0.Q 0 agent0.n_actions →
      ∃! k, k < (maxCandidates agent0 0).length ∧ select_action agent0 0 0 k = 1) := by
  have h := claim_C9 agent0 0 0 rfl (le_refl 0) (by decide)
  exact ⟨h.1 0, (h.2 1).mp⟩

/-- C10 witness: on the scenario environment the valid action 0 yields a
`some` next state encoded against the mutated hospital list. -/
theorem claim_C10_witness :
    0 < env0.n_hospitals ∧
    (0 / env0.n_hospitals < env0.n_ambulances →
      (env0.ambulances.getD (0 / env0.n_hospitals) default).status = AmbStatus.idle →
      (step env0 0).1.next_state =
        some (encode_state env0.cols env0.n_ambulances env0.patient env0.ambulances
          (step env0 0).2.hospitals)) :=
  ⟨by decide, (claim_C10 env0 0 (by decide)).2⟩

end ERS
